import Mathlib

/-!
Verification development for the DayPlanner core: a shallow embedding of
`recalculateSchedule` (src/services/scheduler.ts) and of the timer / task
handlers `handleTimerFinish`, `handleToggleTimer`, `handleSkipTimer` and
`handleTaskComplete` (the main application component), together with proofs
about them.

Modelling conventions:
- JS timestamps (milliseconds) and durations (whole minutes) are `ℤ`.
- `remainingSeconds` is `ℚ`, because the source divides millisecond deltas
  by 1000 (`(Date.now() - lastStartedAt) / 1000`).
- A JS optional number `x` used as `x || fallback` is an `Option ℤ` run
  through `jsOr`, which treats both `undefined` and `0` as absent (JS
  falsiness of `0`).
- An `anchoredStartTime` string "HH:MM" is carried in already-split form as
  `Option (ℤ × ℤ)` (the result of `split(':').map(Number)`), and a reference
  `Date` is carried as the timestamp of its local midnight, so that
  `anchorDate.setHours(h, m, 0, 0)` becomes `midnight + h*3600000 + m*60000`.
- `Date.now()` readings are explicit parameters.
-/

namespace DayPlanner

/-- JS `a || b` for an optional number: `0` (and `undefined`) fall through. -/
def jsOr (a : Option ℤ) (b : ℤ) : ℤ :=
  match a with
  | some x => if x = 0 then b else x
  | none => b

/-- `Math.ceil(a / b)` on integers, for a positive divisor `b`. -/
def ceilDiv (a b : ℤ) : ℤ := -((-a).ediv b)

inductive TimerMode
  | pomo
  | short
  | long
deriving DecidableEq

inductive TaskStatus
  | pending
  | active
  | completed
deriving DecidableEq

/-- `TimerData` from the source types. -/
structure TimerData where
  remainingSeconds : ℚ
  isRunning : Bool
  lastStartedAt : Option ℤ := none
  mode : TimerMode
deriving DecidableEq

/-- `Task` from the source types. -/
structure Task where
  id : String
  title : String
  startTime : ℤ
  duration : ℤ
  completedPomodoros : ℤ
  expectedPomodoros : ℤ
  status : TaskStatus
  notes : Option String := none
  color : Option String := none
  anchoredStartTime : Option (ℤ × ℤ) := none
  timer : TimerData
deriving DecidableEq

/-- `Settings` from the source types. -/
structure Settings where
  pomodoroDuration : ℤ
  shortBreakDuration : ℤ
  longBreakDuration : ℤ
  autoStartBreaks : Bool
  autoStartPomodoros : Bool
deriving DecidableEq

/-- Resolution of a split "HH:MM" anchor on the reference day whose local
midnight is `D`: `anchorDate.setHours(h, m, 0, 0)`. -/
def anchorTimestamp (D h m : ℤ) : ℤ := D + h * 3600000 + m * 60000

/-- The anchor block of `recalculateSchedule`: given the running cursor
`tracker` and the already-scheduled previous task `prev` (still open to
compression), returns the updated cursor and previous task.  Mirrors the
`if (task.anchoredStartTime && referenceDate)` block of the source. -/
def anchorStep (referenceDate : Option ℤ) (t : Task) (tracker : ℤ)
    (prev : Option Task) : ℤ × Option Task :=
  match t.anchoredStartTime with
  | none => (tracker, prev)
  | some hm =>
    match referenceDate with
    | none => (tracker, prev)
    | some D =>
      let anchorTs := anchorTimestamp D hm.1 hm.2
      if tracker > anchorTs then
        match prev with
        | some p =>
          let overrunMins := ceilDiv (tracker - anchorTs) 60000
          if p.duration > overrunMins then
            (anchorTs, some { p with duration := p.duration - overrunMins })
          else
            (max anchorTs (tracker - p.duration * 60000),
             some { p with duration := 0 })
        | none => (tracker, none)
      else
        (max tracker anchorTs, prev)

/-- The planned end of `t` started at `start`, replaced by the current time
when `t` is the active task and is overrunning (`currentTime` truthy). -/
def effectiveEnd (activeTaskId : Option String) (currentTime : Option ℤ)
    (t : Task) (start : ℤ) : ℤ :=
  let e := start + t.duration * 60000
  match currentTime with
  | some ct => if activeTaskId = some t.id ∧ ct ≠ 0 ∧ ct > e then ct else e
  | none => e

/-- The left-to-right pass of `recalculateSchedule`.  `prev` is the most
recently scheduled task, emitted only once the next task has had its chance
to compress it. -/
def recalcAux (activeTaskId : Option String) (currentTime : Option ℤ)
    (referenceDate : Option ℤ) : List Task → ℤ → Option Task → List Task
  | [], _, prev => prev.toList
  | t :: rest, tracker, prev =>
    let s := anchorStep referenceDate t tracker prev
    s.2.toList ++
      recalcAux activeTaskId currentTime referenceDate rest
        (effectiveEnd activeTaskId currentTime t s.1)
        (some { t with startTime := s.1 })

/-- `recalculateSchedule` from `src/services/scheduler.ts`.
`completedTaskId` and `actualEndTime` are accepted and ignored, exactly as in
the source (the body never reads them); `dateNow` stands for the ambient
`Date.now()` used when `planStartTime` is absent or `0` (JS falsiness). -/
def recalculateSchedule (tasks : List Task) (completedTaskId : Option String)
    (actualEndTime : Option ℤ) (activeTaskId : Option String)
    (currentTime : Option ℤ) (planStartTime : Option ℤ)
    (referenceDate : Option ℤ) (dateNow : ℤ) : List Task :=
  recalcAux activeTaskId currentTime referenceDate tasks
    (jsOr planStartTime dateNow) none

/-- JS `Math.max` on rationals, written with an explicit comparison so that
closed instances evaluate by `decide`; equal to `max` (`jsMax_eq_max`
below). -/
def jsMax (a b : ℚ) : ℚ := if a ≤ b then b else a

/-- Pausing branch of `handleToggleTimer`:
`elapsed = (now - (lastStartedAt || now)) / 1000`. -/
def pauseTimer (now : ℤ) (t : Task) : Task :=
  let elapsed : ℚ := ((now - jsOr t.timer.lastStartedAt now : ℤ) : ℚ) / 1000
  { t with timer := { t.timer with
      isRunning := false,
      remainingSeconds := jsMax 0 (t.timer.remainingSeconds - elapsed),
      lastStartedAt := none } }

/-- `handleToggleTimer` from the application component: pause the target if
running, else start it; any other running task is paused. -/
def handleToggleTimer (now : ℤ) (taskId : String) (tasks : List Task) :
    List Task :=
  tasks.map fun t =>
    if t.id = taskId then
      if t.timer.isRunning then pauseTimer now t
      else { t with timer := { t.timer with
               isRunning := true, lastStartedAt := some now } }
    else if t.timer.isRunning then pauseTimer now t
    else t

/-- The per-task transform inside `handleTimerFinish`. -/
def finishTask (settings : Settings) (now : ℤ) (t : Task) : Task :=
  if t.timer.mode = TimerMode.pomo then
    let completedPomos := t.completedPomodoros + 1
    let nextMode := if completedPomos % 4 = 0 then TimerMode.long
                    else TimerMode.short
    let nextTime := (if nextMode = TimerMode.long then
                       settings.longBreakDuration
                     else settings.shortBreakDuration) * 60
    let shouldAutoStart := settings.autoStartBreaks
    { t with
      completedPomodoros := completedPomos,
      timer := { remainingSeconds := (nextTime : ℚ),
                 isRunning := shouldAutoStart,
                 mode := nextMode,
                 lastStartedAt := if shouldAutoStart then some now else none } }
  else
    let shouldAutoStart := settings.autoStartPomodoros
    { t with
      timer := { remainingSeconds := ((settings.pomodoroDuration * 60 : ℤ) : ℚ),
                 isRunning := shouldAutoStart,
                 mode := TimerMode.pomo,
                 lastStartedAt := if shouldAutoStart then some now else none } }

/-- `handleTimerFinish` from the application component. -/
def handleTimerFinish (settings : Settings) (now : ℤ) (taskId : String)
    (tasks : List Task) : List Task :=
  tasks.map fun t => if t.id = taskId then finishTask settings now t else t

/-- `handleSkipTimer` simply delegates to `handleTimerFinish`. -/
def handleSkipTimer (settings : Settings) (now : ℤ) (taskId : String)
    (tasks : List Task) : List Task :=
  handleTimerFinish settings now taskId tasks

/-- The task / active-pointer mutation step of `handleTaskComplete`, before
the scheduler pass.  Returns the updated list and the new active id. -/
def completeCore (isToday : Bool) (now : ℤ) (activeTaskId : Option String)
    (taskId : String) (tasks : List Task) : List Task × Option String :=
  match tasks.find? (fun t => t.id = taskId) with
  | none => (tasks, activeTaskId)
  | some task =>
    let isAlreadyCompleted := task.status = TaskStatus.completed
    let newStatus := if isAlreadyCompleted then TaskStatus.pending
                     else TaskStatus.completed
    let newDuration :=
      if isAlreadyCompleted then task.duration
      else if task.startTime ≤ now ∧ isToday then
        max 1 (ceilDiv (now - task.startTime) 60000)
      else if isToday then 0
      else task.duration
    let newActive := if ¬isAlreadyCompleted ∧ activeTaskId = some taskId then
                       none
                     else activeTaskId
    (tasks.map fun t =>
       if t.id = taskId then
         { t with status := newStatus, duration := newDuration,
                  timer := { t.timer with isRunning := false } }
       else t,
     newActive)

/-- `handleTaskComplete`: the mutation step of `completeCore` followed by the
scheduler pass (`updateSchedule` → `recalculateSchedule`).  The scheduler pass
still sees the pre-call `activeTaskId` (the React state setter has not fired
within this closure), receives the same `Date.now()` reading as `currentTime`
and fallback, and always receives the selected date as reference date.  When
the id is not found the handler returns without touching anything. -/
def handleTaskComplete (isToday : Bool) (now : ℤ) (activeTaskId : Option String)
    (taskId : String) (tasks : List Task) (planStart : Option ℤ)
    (referenceDate : ℤ) : List Task × Option String :=
  match tasks.find? (fun t => t.id = taskId) with
  | none => (tasks, activeTaskId)
  | some task =>
    let r := completeCore isToday now activeTaskId taskId tasks
    let isAlreadyCompleted := task.status = TaskStatus.completed
    let completedId := if isAlreadyCompleted then none else some taskId
    let actualEnd := if isAlreadyCompleted then none else some now
    (recalculateSchedule r.1 completedId actualEnd activeTaskId (some now)
       planStart (some referenceDate) now,
     r.2)

/-- Sequential assignment with no anchor handling: what the pass does to a
list none of whose members receives anchor treatment. -/
def chainAssign (activeTaskId : Option String) (currentTime : Option ℤ) :
    List Task → ℤ → List Task
  | [], _ => []
  | t :: rest, tracker =>
    { t with startTime := tracker } ::
      chainAssign activeTaskId currentTime rest
        (effectiveEnd activeTaskId currentTime t tracker)

/-- Forgetting a task's anchor. -/
def eraseAnchor (t : Task) : Task := { t with anchoredStartTime := none }

/-! ### Fixed sample data used by concrete instances -/

def idA : String := "a"

def idB : String := "b"

/-- A fresh 25-minute pomodoro timer. -/
def baseTimer : TimerData :=
  { remainingSeconds := 1500, isRunning := false, lastStartedAt := none,
    mode := TimerMode.pomo }

/-- A pending task with the given id, duration and anchor. -/
def mkTask (i : String) (dur : ℤ) (anchor : Option (ℤ × ℤ)) : Task :=
  { id := i, title := i, startTime := 0, duration := dur,
    completedPomodoros := 0, expectedPomodoros := 0,
    status := TaskStatus.pending, notes := none, color := none,
    anchoredStartTime := anchor, timer := baseTimer }

/-! ### Basic lemmas about the pass -/

theorem jsOr_some_of_ne (x b : ℤ) (hx : x ≠ 0) : jsOr (some x) b = x := by
  simp [jsOr, hx]

theorem jsMax_eq_max (a b : ℚ) : jsMax a b = max a b := by
  rw [jsMax, max_def]

theorem anchorStep_of_anchor_none (r : Option ℤ) (t : Task) (tracker : ℤ)
    (prev : Option Task) (h : t.anchoredStartTime = none) :
    anchorStep r t tracker prev = (tracker, prev) := by
  simp [anchorStep, h]

theorem anchorStep_of_rd_none (t : Task) (tracker : ℤ) (prev : Option Task) :
    anchorStep none t tracker prev = (tracker, prev) := by
  cases h : t.anchoredStartTime <;> simp [anchorStep, h]

theorem anchorStep_prev_none (r : Option ℤ) (t : Task) (tracker : ℤ) :
    (anchorStep r t tracker none).2 = none := by
  cases h : t.anchoredStartTime with
  | none => simp [anchorStep, h]
  | some hm =>
    cases r with
    | none => simp [anchorStep, h]
    | some D => simp only [anchorStep, h]; split <;> rfl

theorem anchorStep_prev_some (r : Option ℤ) (t : Task) (tracker : ℤ)
    (p : Task) :
    ∃ d, (anchorStep r t tracker (some p)).2 = some { p with duration := d } := by
  cases h : t.anchoredStartTime with
  | none =>
    exact ⟨p.duration, by simp [anchorStep, h]⟩
  | some hm =>
    cases r with
    | none => exact ⟨p.duration, by simp [anchorStep, h]⟩
    | some D =>
      simp only [anchorStep, h]
      by_cases h1 : tracker > anchorTimestamp D hm.1 hm.2
      · simp only [if_pos h1]
        by_cases h2 :
            p.duration > ceilDiv (tracker - anchorTimestamp D hm.1 hm.2) 60000
        · exact ⟨p.duration - ceilDiv (tracker - anchorTimestamp D hm.1 hm.2) 60000,
            by simp [h2]⟩
        · exact ⟨0, by simp [h2]⟩
      · exact ⟨p.duration, by simp [h1]⟩

theorem recalcAux_length (a : Option String) (c : Option ℤ) (r : Option ℤ)
    (l : List Task) :
    ∀ (tracker : ℤ) (prev : Option Task),
      (recalcAux a c r l tracker prev).length = prev.toList.length + l.length := by
  induction l with
  | nil => intro tracker prev; simp [recalcAux]
  | cons t rest ih =>
    intro tracker prev
    simp only [recalcAux, List.length_append, ih, List.length_cons]
    cases prev with
    | none => simp [anchorStep_prev_none]; omega
    | some p =>
      obtain ⟨d, hd⟩ := anchorStep_prev_some r t tracker p
      simp [hd]
      omega

theorem recalcAux_head (a : Option String) (c : Option ℤ) (r : Option ℤ)
    (l : List Task) (tracker : ℤ) (p : Task) :
    ∃ d, (recalcAux a c r l tracker (some p))[0]? =
      some { p with duration := d } := by
  cases l with
  | nil => exact ⟨p.duration, rfl⟩
  | cons t rest =>
    obtain ⟨d, hd⟩ := anchorStep_prev_some r t tracker p
    refine ⟨d, ?_⟩
    simp [recalcAux, hd]

/-- When every anchor step of the pass is vacuous the pass is the plain
sequential assignment `chainAssign`. -/
theorem recalcAux_eq_chain (a : Option String) (c : Option ℤ) (r : Option ℤ)
    (l : List Task)
    (hA : ∀ t ∈ l, ∀ (tracker : ℤ) (prev : Option Task),
      anchorStep r t tracker prev = (tracker, prev)) :
    ∀ (tracker : ℤ) (prev : Option Task),
      recalcAux a c r l tracker prev = prev.toList ++ chainAssign a c l tracker := by
  induction l with
  | nil => intro tracker prev; simp [recalcAux, chainAssign]
  | cons t rest ih =>
    intro tracker prev
    have ht := hA t (by simp) tracker prev
    simp only [recalcAux, chainAssign, ht]
    rw [ih (fun u hu => hA u (by simp [hu]))]
    simp

theorem chainAssign_length (a : Option String) (c : Option ℤ) (l : List Task) :
    ∀ tracker : ℤ, (chainAssign a c l tracker).length = l.length := by
  induction l with
  | nil => intro tracker; rfl
  | cons t rest ih => intro tracker; simp [chainAssign, ih]

/-- `effectiveEnd` only looks at the id and duration, which a `startTime`
update leaves unchanged. -/
theorem effectiveEnd_set_start (a : Option String) (c : Option ℤ) (t : Task)
    (s tracker : ℤ) :
    effectiveEnd a c { t with startTime := s } tracker =
      effectiveEnd a c t tracker := rfl

theorem chainAssign_idem (a : Option String) (c : Option ℤ) (l : List Task) :
    ∀ tracker : ℤ,
      chainAssign a c (chainAssign a c l tracker) tracker =
        chainAssign a c l tracker := by
  induction l with
  | nil => intro tracker; rfl
  | cons t rest ih =>
    intro tracker
    simp only [chainAssign, effectiveEnd_set_start]
    exact congrArg _ (ih _)

/-- Every element of the chain is its source element with a new start time. -/
theorem chainAssign_getElem_shape (a : Option String) (c : Option ℤ)
    (l : List Task) :
    ∀ (tracker : ℤ) (i : ℕ) (ti : Task), l[i]? = some ti →
      ∃ s, (chainAssign a c l tracker)[i]? = some { ti with startTime := s } := by
  induction l with
  | nil => intro tracker i ti h; simp at h
  | cons t rest ih =>
    intro tracker i ti h
    cases i with
    | zero =>
      simp at h
      exact ⟨tracker, by simp [chainAssign, h]⟩
    | succ j =>
      simp only [List.getElem?_cons_succ] at h
      obtain ⟨s, hs⟩ := ih (effectiveEnd a c t tracker) j ti h
      exact ⟨s, by simpa [chainAssign] using hs⟩

/-- Consecutive chain starts are related by `effectiveEnd`. -/
theorem chainAssign_consecutive (a : Option String) (c : Option ℤ)
    (l : List Task) :
    ∀ (tracker : ℤ) (i : ℕ) (ti tc tn : Task), l[i]? = some ti →
      (chainAssign a c l tracker)[i]? = some tc →
      (chainAssign a c l tracker)[i + 1]? = some tn →
      tn.startTime = effectiveEnd a c ti tc.startTime := by
  induction l with
  | nil => intro tracker i ti tc tn h; simp at h
  | cons t rest ih =>
    intro tracker i ti tc tn h hto htn
    cases i with
    | zero =>
      simp at h
      simp only [chainAssign, List.getElem?_cons_zero, Option.some.injEq] at hto
      cases rest with
      | nil => simp [chainAssign] at htn
      | cons u rest2 =>
        simp only [chainAssign, List.getElem?_cons_succ,
          List.getElem?_cons_zero, Option.some.injEq] at htn
        subst h
        rw [← hto, ← htn]
    | succ j =>
      simp only [List.getElem?_cons_succ] at h
      simp only [chainAssign, List.getElem?_cons_succ] at hto htn
      exact ih (effectiveEnd a c t tracker) j ti tc tn h hto htn

theorem chainAssign_anchor_none (a : Option String) (c : Option ℤ)
    (l : List Task) (hna : ∀ t ∈ l, t.anchoredStartTime = none) :
    ∀ (tracker : ℤ), ∀ u ∈ chainAssign a c l tracker,
      u.anchoredStartTime = none := by
  induction l with
  | nil => intro tracker u hu; simp [chainAssign] at hu
  | cons t rest ih =>
    intro tracker u hu
    simp only [chainAssign, List.mem_cons] at hu
    cases hu with
    | inl h => rw [h]; exact hna t (by simp)
    | inr h => exact ih (fun v hv => hna v (by simp [hv])) _ u h

theorem chainAssign_map_erase (a : Option String) (c : Option ℤ)
    (l : List Task) :
    ∀ tracker : ℤ,
      chainAssign a c (l.map eraseAnchor) tracker =
        (chainAssign a c l tracker).map eraseAnchor := by
  induction l with
  | nil => intro tracker; rfl
  | cons t rest ih =>
    intro tracker
    simp only [List.map_cons, chainAssign, ih]
    rfl

/-- The pass with no effective anchors, as a single equation. -/
theorem recalculateSchedule_eq_chain (tasks : List Task)
    (cId : Option String) (aEnd : Option ℤ) (aid : Option String)
    (ct : Option ℤ) (ps : Option ℤ) (rd : Option ℤ) (dateNow : ℤ)
    (hna : ∀ t ∈ tasks, t.anchoredStartTime = none) :
    recalculateSchedule tasks cId aEnd aid ct ps rd dateNow =
      chainAssign aid ct tasks (jsOr ps dateNow) := by
  unfold recalculateSchedule
  rw [recalcAux_eq_chain aid ct rd tasks
    (fun t ht tracker prev => anchorStep_of_anchor_none rd t tracker prev (hna t ht))]
  simp

/-! ### Claim C3: determinism and idempotence -/

/-- Input on which a second identical pass differs from the first: the active
task "a" overruns (`now` = 36000000) straight into the anchor "08:30" of the
following task "b". -/
def c3Tasks : List Task := [mkTask idA 100 none, mkTask idB 25 (some (8, 30))]

/-- One pass over `c3Tasks`: plan start 08:00 (reference midnight 0), active
task "a", now 10:00. -/
def c3Once : List Task :=
  recalculateSchedule c3Tasks none none (some idA) (some 36000000)
    (some 28800000) (some 0) 999

/-- C3, counterexample: re-running `recalculateSchedule` on its own output
with identical `now`, `activeTaskId`, `planStartTime` and `referenceDate`
does not reproduce the output.  The first pass compresses "a" from 100 to 10
minutes and starts "b" at its anchor 08:30; the second pass, seeing the
active task still overrunning to `now`, squashes "a" to duration 0 and moves
"b" to 09:50. -/
theorem C3_idempotence_counterexample :
    recalculateSchedule c3Once none none (some idA) (some 36000000)
      (some 28800000) (some 0) 999 ≠ c3Once := by
  decide

/-- C3 (amended): `recalculateSchedule` is deterministic (identical inputs
give identical outputs), and it is idempotent provided no task carries an
`anchoredStartTime`.  With anchors present the second pass can re-compress a
task that precedes an anchored task whenever the active-overrun branch keeps
re-raising the cursor, as the counterexample shows. -/
theorem C3_deterministic_and_idempotent_without_anchors (tasks : List Task)
    (cId : Option String) (aEnd : Option ℤ) (aid : Option String)
    (ct : Option ℤ) (ps : Option ℤ) (rd : Option ℤ) (dateNow : ℤ)
    (hna : ∀ t ∈ tasks, t.anchoredStartTime = none) :
    recalculateSchedule tasks cId aEnd aid ct ps rd dateNow =
      recalculateSchedule tasks cId aEnd aid ct ps rd dateNow ∧
    recalculateSchedule (recalculateSchedule tasks cId aEnd aid ct ps rd dateNow)
        cId aEnd aid ct ps rd dateNow =
      recalculateSchedule tasks cId aEnd aid ct ps rd dateNow := by
  refine ⟨rfl, ?_⟩
  have h1 := recalculateSchedule_eq_chain tasks cId aEnd aid ct ps rd dateNow hna
  have hna2 : ∀ t ∈ recalculateSchedule tasks cId aEnd aid ct ps rd dateNow,
      t.anchoredStartTime = none := by
    rw [h1]
    exact chainAssign_anchor_none aid ct tasks hna _
  rw [recalculateSchedule_eq_chain _ cId aEnd aid ct ps rd dateNow hna2, h1,
    chainAssign_idem]

/-- Witness for the amended C3 at a concrete anchor-free input. -/
theorem C3_deterministic_and_idempotent_without_anchors_witness :
    recalculateSchedule [mkTask idA 10 none, mkTask idB 5 none] none none
        (some idA) (some 2000000) (some 1000000) none 0 =
      recalculateSchedule [mkTask idA 10 none, mkTask idB 5 none] none none
        (some idA) (some 2000000) (some 1000000) none 0 ∧
    recalculateSchedule
        (recalculateSchedule [mkTask idA 10 none, mkTask idB 5 none] none none
          (some idA) (some 2000000) (some 1000000) none 0) none none
        (some idA) (some 2000000) (some 1000000) none 0 =
      recalculateSchedule [mkTask idA 10 none, mkTask idB 5 none] none none
        (some idA) (some 2000000) (some 1000000) none 0 :=
  C3_deterministic_and_idempotent_without_anchors _ _ _ _ _ _ _ _ (by decide)

/-! ### Claim C10: an omitted reference date disables all anchors -/

/-- C10: calling `recalculateSchedule` without a `referenceDate` ignores
every `anchoredStartTime`: up to the (untouched) anchor fields themselves,
the output is what recalculating the same list with all anchors removed
produces, for any reference date on that anchor-free list. -/
theorem C10_omitted_reference_date_ignores_anchors (tasks : List Task)
    (cId : Option String) (aEnd : Option ℤ) (aid : Option String)
    (ct : Option ℤ) (ps : Option ℤ) (dateNow : ℤ) (rd : Option ℤ) :
    recalculateSchedule (tasks.map eraseAnchor) cId aEnd aid ct ps rd dateNow =
      (recalculateSchedule tasks cId aEnd aid ct ps none dateNow).map
        eraseAnchor := by
  have hna : ∀ t ∈ tasks.map eraseAnchor, t.anchoredStartTime = none := by
    intro t ht
    simp only [List.mem_map] at ht
    obtain ⟨u, _, hu⟩ := ht
    rw [← hu]
    rfl
  rw [recalculateSchedule_eq_chain _ cId aEnd aid ct ps rd dateNow hna]
  unfold recalculateSchedule
  rw [recalcAux_eq_chain aid ct none tasks
    (fun t ht tracker prev => anchorStep_of_rd_none t tracker prev)]
  simp [chainAssign_map_erase]

/-! ### Claim C9: the linear chain -/

/-- C9: with no anchors and no task triggering the active-overrun branch
(and a truthy `planStartTime`, since `0` falls back to `Date.now()` in the
source), the pass assigns `start[0] = planStartTime`,
`start[i+1] = start[i] + duration[i]*60000`, and leaves every duration
unchanged. -/
theorem C9_linear_chain (tasks : List Task) (cId : Option String)
    (aEnd : Option ℤ) (aid : Option String) (ct : Option ℤ) (P : ℤ)
    (rd : Option ℤ) (dateNow : ℤ) (hP : P ≠ 0)
    (hna : ∀ t ∈ tasks, t.anchoredStartTime = none)
    (hnoover : ∀ (i : ℕ) (ti tc : Task) (c : ℤ), tasks[i]? = some ti →
      (recalculateSchedule tasks cId aEnd aid ct (some P) rd dateNow)[i]? =
        some tc →
      ct = some c → aid = some ti.id → c ≠ 0 →
      c ≤ tc.startTime + ti.duration * 60000) :
    (∀ t0, tasks[0]? = some t0 →
      (recalculateSchedule tasks cId aEnd aid ct (some P) rd dateNow)[0]?.map
        Task.startTime = some P) ∧
    (∀ (i : ℕ) (tc tn : Task),
      (recalculateSchedule tasks cId aEnd aid ct (some P) rd dateNow)[i]? =
        some tc →
      (recalculateSchedule tasks cId aEnd aid ct (some P) rd dateNow)[i + 1]? =
        some tn →
      tn.startTime = tc.startTime + tc.duration * 60000) ∧
    (∀ i : ℕ,
      ((recalculateSchedule tasks cId aEnd aid ct (some P) rd dateNow)[i]?).map
        Task.duration = (tasks[i]?).map Task.duration) := by
  have hchain := recalculateSchedule_eq_chain tasks cId aEnd aid ct (some P) rd
    dateNow hna
  rw [jsOr_some_of_ne P dateNow hP] at hchain
  rw [hchain] at hnoover ⊢
  have hlen : ∀ i : ℕ, (chainAssign aid ct tasks P)[i]? = none ↔
      tasks[i]? = none := by
    intro i
    rw [List.getElem?_eq_none_iff, List.getElem?_eq_none_iff,
      chainAssign_length]
  refine ⟨?_, ?_, ?_⟩
  · intro t0 h0
    cases tasks with
    | nil => simp at h0
    | cons t rest => simp [chainAssign]
  · intro i tc tn hc hn
    -- recover the source element at position i
    have hsome : tasks[i]? ≠ none := by
      intro hnone
      rw [← hlen] at hnone
      rw [hc] at hnone
      exact Option.noConfusion hnone
    obtain ⟨ti, hti⟩ := Option.ne_none_iff_exists'.mp hsome
    obtain ⟨s, hs⟩ := chainAssign_getElem_shape aid ct tasks P i ti hti
    have hcons := chainAssign_consecutive aid ct tasks P i ti tc tn hti hc hn
    have htc : tc = { ti with startTime := s } := by
      rw [hc] at hs
      exact Option.some_injective _ hs
    have hdur : tc.duration = ti.duration := by rw [htc]
    rw [hcons]
    unfold effectiveEnd
    cases hct : ct with
    | none => simp [hdur]
    | some c =>
      simp only
      split
      · rename_i hcond
        obtain ⟨haid, hc0, hover⟩ := hcond
        have := hnoover i ti tc c hti hc hct haid hc0
        omega
      · simp [hdur]
  · intro i
    cases hti : tasks[i]? with
    | none =>
      rw [(hlen i).mpr hti]
    | some ti =>
      obtain ⟨s, hs⟩ := chainAssign_getElem_shape aid ct tasks P i ti hti
      rw [hs]
      simp

/-- Witness for C9: two anchor-free tasks, no active task ("a" 10 minutes,
"b" 5 minutes, plan start 1000000). -/
theorem C9_linear_chain_witness :
    ((recalculateSchedule [mkTask idA 10 none, mkTask idB 5 none] none none
      none none (some 1000000) none 0)[0]?).map Task.startTime =
        some 1000000 ∧
    ({ mkTask idB 5 none with startTime := 1600000 } : Task).startTime =
      ({ mkTask idA 10 none with startTime := 1000000 } : Task).startTime +
        ({ mkTask idA 10 none with startTime := 1000000 } : Task).duration *
          60000 ∧
    ((recalculateSchedule [mkTask idA 10 none, mkTask idB 5 none] none none
      none none (some 1000000) none 0)[1]?).map Task.duration =
      (([mkTask idA 10 none, mkTask idB 5 none] : List Task)[1]?).map
        Task.duration := by
  have h := C9_linear_chain [mkTask idA 10 none, mkTask idB 5 none] none none
    none none 1000000 none 0 (by decide) (by decide)
    (fun i ti tc c h1 h2 h3 h4 h5 => nomatch h3)
  exact ⟨h.1 (mkTask idA 10 none) (by decide),
    h.2.1 0 { mkTask idA 10 none with startTime := 1000000 }
      { mkTask idB 5 none with startTime := 1600000 } (by decide) (by decide),
    h.2.2 1⟩

/-- C9, counterexample to the unamended claim: a supplied `planStartTime`
of `0` is falsy in the source (`planStartTime || Date.now()`), so the first
start time is `Date.now()` (here 77), not the supplied plan start. -/
theorem C9_linear_chain_counterexample :
    ((recalculateSchedule [mkTask idA 10 none] none none none none (some 0)
      none 77)[0]?).map Task.startTime = some 77 ∧
    some (77 : ℤ) ≠ some (0 : ℤ) := by
  decide

/-! ### Claim C1: anchor compression -/

/-- C1: when the pass reaches an anchored task (at any position `i > 0`,
i.e. with a predecessor `p` in hand) with the cursor past the resolved
anchor `A`, then with `overrunMins = ceil((cursor - A)/60000)`: if the
predecessor's duration exceeds `overrunMins` it is reduced by exactly that
amount and the anchored task starts exactly at `A`; otherwise the
predecessor's duration becomes exactly `0` (never negative) and the cursor
lands at `max A (cursor - duration*60000)`, possibly after `A`, with no
error — the pass is total.  The second conjunct is the concrete P5 instance:
plan start 08:00, task "a" of 45 minutes unanchored, task "b" anchored
08:30; the output has `a.duration = 30` and `b.startTime = 08:30`. -/
theorem C1_anchor_compression :
    (∀ (aid : Option String) (ct : Option ℤ) (D hh mm : ℤ) (p t : Task)
       (rest : List Task) (tracker : ℤ),
      t.anchoredStartTime = some (hh, mm) →
      tracker > anchorTimestamp D hh mm →
      ((ceilDiv (tracker - anchorTimestamp D hh mm) 60000 < p.duration →
        (recalcAux aid ct (some D) (t :: rest) tracker (some p))[0]? =
          some { p with duration :=
            p.duration - ceilDiv (tracker - anchorTimestamp D hh mm) 60000 } ∧
        ((recalcAux aid ct (some D) (t :: rest) tracker (some p))[1]?).map
          Task.startTime = some (anchorTimestamp D hh mm)) ∧
       (¬ ceilDiv (tracker - anchorTimestamp D hh mm) 60000 < p.duration →
        (recalcAux aid ct (some D) (t :: rest) tracker (some p))[0]? =
          some { p with duration := 0 } ∧
        ((recalcAux aid ct (some D) (t :: rest) tracker (some p))[1]?).map
          Task.startTime =
            some (max (anchorTimestamp D hh mm)
              (tracker - p.duration * 60000))))) ∧
    ((recalculateSchedule [mkTask idA 45 none, mkTask idB 25 (some (8, 30))]
        none none none none (some 28800000) (some 0) 0)[0]?.map Task.duration =
      some 30 ∧
     (recalculateSchedule [mkTask idA 45 none, mkTask idB 25 (some (8, 30))]
        none none none none (some 28800000) (some 0) 0)[1]?.map Task.startTime =
      some 30600000) := by
  constructor
  · intro aid ct D hh mm p t rest tracker hanch htr
    constructor
    · intro hlt
      have hstep : anchorStep (some D) t tracker (some p) =
          (anchorTimestamp D hh mm,
           some { p with duration :=
             p.duration - ceilDiv (tracker - anchorTimestamp D hh mm) 60000 }) := by
        simp [anchorStep, hanch, htr, hlt]
      constructor
      · simp [recalcAux, hstep]
      · obtain ⟨d, hd⟩ := recalcAux_head aid ct (some D) rest (effectiveEnd aid ct t (anchorTimestamp D hh mm)) { t with startTime := anchorTimestamp D hh mm }
        simp [recalcAux, hstep, hd]
    · intro hge
      have hstep : anchorStep (some D) t tracker (some p) =
          (max (anchorTimestamp D hh mm) (tracker - p.duration * 60000),
           some { p with duration := 0 }) := by
        simp [anchorStep, hanch, htr, hge]
      constructor
      · simp [recalcAux, hstep]
      · obtain ⟨d, hd⟩ := recalcAux_head aid ct (some D) rest (effectiveEnd aid ct t (max (anchorTimestamp D hh mm) (tracker - p.duration * 60000))) { t with startTime := max (anchorTimestamp D hh mm) (tracker - p.duration * 60000) }
        simp [recalcAux, hstep, hd]
  · exact ⟨by decide, by decide⟩

/-- Witness instantiating the general part of C1 on the P5 numbers: cursor
08:45, anchor 08:30, predecessor of 45 minutes, overrun 15 minutes. -/
theorem C1_anchor_compression_witness :
    (recalcAux none none (some 0)
        [mkTask idB 25 (some (8, 30))] 31500000 (some (mkTask idA 45 none)))[0]? =
      some { mkTask idA 45 none with duration := (mkTask idA 45 none).duration - ceilDiv (31500000 - anchorTimestamp 0 8 30) 60000 } ∧
    ((recalcAux none none (some 0)
        [mkTask idB 25 (some (8, 30))] 31500000
        (some (mkTask idA 45 none)))[1]?).map Task.startTime =
      some (anchorTimestamp 0 8 30) :=
  (C1_anchor_compression.1 none none 0 8 30 (mkTask idA 45 none)
    (mkTask idB 25 (some (8, 30))) [] 31500000 (by decide) (by decide)).1
    (by decide)

/-! ### Claim C2: overrun push -/

theorem anchorStep_prev_length (r : Option ℤ) (t : Task) (tracker : ℤ)
    (o : Option Task) :
    ((anchorStep r t tracker o).2.toList).length = o.toList.length := by
  cases o with
  | none => rw [anchorStep_prev_none]
  | some p =>
    obtain ⟨d, hd⟩ := anchorStep_prev_some r t tracker p
    rw [hd]
    rfl

/-- Core of the overrun-push property: anywhere in the pass, if the task `k`
is the active task, `now` (truthy) exceeds its scheduled start plus its
duration, and the following task `nxt` is unanchored, then `k` keeps its
duration and `nxt` starts exactly at `now`. -/
theorem recalcAux_overrun (ct : ℤ) (rd : Option ℤ) (k nxt : Task)
    (post : List Task) (hna : nxt.anchoredStartTime = none) (hct : ct ≠ 0)
    (pre : List Task) :
    ∀ (tracker : ℤ) (o : Option Task) (s : ℤ),
      ((recalcAux (some k.id) (some ct) rd (pre ++ k :: nxt :: post) tracker
          o)[o.toList.length + pre.length]?).map Task.startTime = some s →
      ct > s + k.duration * 60000 →
      ((recalcAux (some k.id) (some ct) rd (pre ++ k :: nxt :: post) tracker
          o)[o.toList.length + pre.length]?).map Task.duration =
        some k.duration ∧
      ((recalcAux (some k.id) (some ct) rd (pre ++ k :: nxt :: post) tracker
          o)[o.toList.length + pre.length + 1]?).map Task.startTime =
        some ct := by
  induction pre with
  | nil =>
    intro tracker o s hs hover
    have hn0 := anchorStep_prev_length rd k tracker o
    have hstep : recalcAux (some k.id) (some ct) rd ([] ++ k :: nxt :: post) tracker o = (anchorStep rd k tracker o).2.toList ++ ({ k with startTime := (anchorStep rd k tracker o).1 } :: recalcAux (some k.id) (some ct) rd post (effectiveEnd (some k.id) (some ct) nxt (effectiveEnd (some k.id) (some ct) k (anchorStep rd k tracker o).1)) (some { nxt with startTime := effectiveEnd (some k.id) (some ct) k (anchorStep rd k tracker o).1 })) := by
      simp only [List.nil_append, recalcAux,
        anchorStep_of_anchor_none rd nxt _ _ hna]
      simp
    have hle : ((anchorStep rd k tracker o).2.toList).length ≤
        o.toList.length + List.length ([] : List Task) := by
      simp [hn0]
    have hle2 : ((anchorStep rd k tracker o).2.toList).length ≤
        o.toList.length + List.length ([] : List Task) + 1 := by
      simp [hn0]
    have hidx : o.toList.length + List.length ([] : List Task) -
        ((anchorStep rd k tracker o).2.toList).length = 0 := by
      simp [hn0]
    have hidx2 : o.toList.length + List.length ([] : List Task) + 1 -
        ((anchorStep rd k tracker o).2.toList).length = 1 := by
      simp [hn0]
    rw [hstep, List.getElem?_append_right hle, hidx] at hs
    simp only [List.getElem?_cons_zero] at hs
    have hs1 : (anchorStep rd k tracker o).1 = s := by
      simpa using hs
    have he1 : effectiveEnd (some k.id) (some ct) k
        (anchorStep rd k tracker o).1 = ct := by
      rw [hs1]
      simp [effectiveEnd, hct, hover]
    constructor
    · rw [hstep, List.getElem?_append_right hle, hidx]
      simp
    · rw [hstep, List.getElem?_append_right hle2, hidx2]
      simp only [List.getElem?_cons_succ]
      obtain ⟨d, hd⟩ := recalcAux_head (some k.id) (some ct) rd post (effectiveEnd (some k.id) (some ct) nxt (effectiveEnd (some k.id) (some ct) k (anchorStep rd k tracker o).1)) { nxt with startTime := effectiveEnd (some k.id) (some ct) k (anchorStep rd k tracker o).1 }
      rw [hd]
      simp [he1]
  | cons q pre ih =>
    intro tracker o s hs hover
    have hstep : recalcAux (some k.id) (some ct) rd ((q :: pre) ++ k :: nxt :: post) tracker o = (anchorStep rd q tracker o).2.toList ++ recalcAux (some k.id) (some ct) rd (pre ++ k :: nxt :: post) (effectiveEnd (some k.id) (some ct) q (anchorStep rd q tracker o).1) (some { q with startTime := (anchorStep rd q tracker o).1 }) := by
      simp only [List.cons_append, recalcAux, List.append_eq]
    have hn0 := anchorStep_prev_length rd q tracker o
    have hle : ((anchorStep rd q tracker o).2.toList).length ≤
        o.toList.length + (q :: pre).length := by
      simp [hn0]
    have hle2 : ((anchorStep rd q tracker o).2.toList).length ≤
        o.toList.length + (q :: pre).length + 1 := by
      simp [hn0]
      omega
    have hidx : o.toList.length + (q :: pre).length -
        ((anchorStep rd q tracker o).2.toList).length =
        (some { q with startTime := (anchorStep rd q tracker o).1 }
          : Option Task).toList.length + pre.length := by
      simp [hn0]
      omega
    have hidx2 : o.toList.length + (q :: pre).length + 1 -
        ((anchorStep rd q tracker o).2.toList).length =
        (some { q with startTime := (anchorStep rd q tracker o).1 }
          : Option Task).toList.length + pre.length + 1 := by
      simp [hn0]
      omega
    rw [hstep, List.getElem?_append_right hle, hidx] at hs
    rw [hstep, List.getElem?_append_right hle, hidx,
      List.getElem?_append_right hle2, hidx2]
    exact ih _ _ s hs hover

/-- C2 (amended): if task `k` is the active task, the (nonzero) current time
exceeds `k`'s scheduled start plus its stored duration, and the next task
carries no anchor, then the next task's recalculated `startTime` equals the
current time exactly and `k`'s stored duration is unchanged.  (The two extra
hypotheses are forced: a zero current time is falsy and disables the branch,
and an anchored successor compresses `k` instead, see the counterexample.) -/
theorem C2_overrun_push (cId : Option String) (aEnd : Option ℤ) (ct : ℤ)
    (ps rd : Option ℤ) (dateNow : ℤ) (pre post : List Task) (k nxt : Task)
    (hct : ct ≠ 0) (hna : nxt.anchoredStartTime = none) (s : ℤ)
    (hs : ((recalculateSchedule (pre ++ k :: nxt :: post) cId aEnd (some k.id)
      (some ct) ps rd dateNow)[pre.length]?).map Task.startTime = some s)
    (hover : ct > s + k.duration * 60000) :
    ((recalculateSchedule (pre ++ k :: nxt :: post) cId aEnd (some k.id)
      (some ct) ps rd dateNow)[pre.length]?).map Task.duration =
        some k.duration ∧
    ((recalculateSchedule (pre ++ k :: nxt :: post) cId aEnd (some k.id)
      (some ct) ps rd dateNow)[pre.length + 1]?).map Task.startTime =
        some ct := by
  unfold recalculateSchedule at hs ⊢
  have h := recalcAux_overrun ct rd k nxt post hna hct pre
    (jsOr ps dateNow) none s
  simp only [Option.toList_none, List.length_nil, Nat.zero_add] at h
  exact h hs hover

/-- Witness for C2: active task of 10 minutes from 1000000, now 2000000. -/
theorem C2_overrun_push_witness :
    ((recalculateSchedule ([] ++ mkTask idA 10 none :: mkTask idB 5 none :: [])
      none none (some (mkTask idA 10 none).id) (some 2000000) (some 1000000)
      none 0)[List.length ([] : List Task)]?).map Task.duration = some 10 ∧
    ((recalculateSchedule ([] ++ mkTask idA 10 none :: mkTask idB 5 none :: [])
      none none (some (mkTask idA 10 none).id) (some 2000000) (some 1000000)
      none 0)[List.length ([] : List Task) + 1]?).map Task.startTime =
      some 2000000 :=
  C2_overrun_push none none 2000000 (some 1000000) none 0 [] []
    (mkTask idA 10 none) (mkTask idB 5 none) (by decide) (by decide) 1000000
    (by decide) (by decide)

/-- C2, counterexample to the unamended claim: with an anchored successor the
overrun branch feeds the anchor-compression branch instead.  Task "a"
(100 minutes from 08:00) is active with now 10:00 (premise
`now > start + duration*60000` holds in the output), yet "b" (anchored
08:30) starts at 08:30 rather than at `now`, and "a"'s duration is
compressed from 100 to 10. -/
theorem C2_overrun_push_counterexample :
    ((c3Once[0]?).map Task.startTime = some 28800000 ∧
      (36000000 : ℤ) > 28800000 + 100 * 60000) ∧
    (c3Once[1]?).map Task.startTime = some 30600000 ∧
    ((c3Once[1]?).map Task.startTime ≠ some 36000000 ∧
      (c3Once[0]?).map Task.duration = some 10 ∧
      (c3Once[0]?).map Task.duration ≠ some 100) := by
  constructor
  · exact ⟨by decide, by decide⟩
  constructor
  · decide
  · exact ⟨by decide, by decide, by decide⟩

/-! ### Claim C4: the lastStartedAt / isRunning invariant -/

/-- A task whose timer is running since timestamp 5000. -/
def c4Task : Task :=
  { mkTask idA 30 none with
    timer := { baseTimer with isRunning := true, lastStartedAt := some 5000 } }

/-- C4 fails on `handleTaskComplete`: completing a running task stops the
timer (`isRunning := false`) but leaves `lastStartedAt` set, so the
"defined iff running" invariant that held before the call is broken after
it. -/
theorem C4_complete_breaks_timer_invariant :
    ([c4Task].map (fun t => t.timer.lastStartedAt.isSome) =
      [c4Task].map (fun t => t.timer.isRunning)) ∧
    ((handleTaskComplete true 60000 none idA [c4Task] (some 1000) 0).1[0]?).map
      (fun t => (t.timer.isRunning, t.timer.lastStartedAt)) =
      some (false, some 5000) := by
  decide

/-! ### Claim C5: completion semantics -/

/-- A pending 45-minute task that started at time 0. -/
def c5Task : Task := mkTask idA 45 none

/-- C5, counterexample: completing a not-yet-completed task with
`startTime ≤ now` does *not* snap its duration when the selected day is not
today (`isToday = false`): the duration stays 45 instead of the claimed
`max(1, ceil((now - startTime)/60000)) = 1`. -/
theorem C5_complete_counterexample :
    (c5Task.status ≠ TaskStatus.completed ∧ c5Task.startTime ≤ 60000) ∧
    ((handleTaskComplete false 60000 none idA [c5Task] (some 1000) 0).1[0]?).map
      Task.duration = some 45 ∧
    some (45 : ℤ) ≠ some (max 1 (ceilDiv (60000 - c5Task.startTime) 60000)) := by
  decide

/-- C5 (amended): on today's list (`isToday = true`), the completion
mutation snaps a not-yet-completed task with `startTime ≤ now` to
`max(1, ceil((now - startTime)/60000))` minutes and a not-yet-started one
(`startTime > now`) to exactly `0`, never negative; toggling a completed
task back to pending changes its status and forces `timer.isRunning` to
`false`, every other field being rewritten with its old value (the
subsequent scheduler pass then reassigns start times as after any
mutation). -/
theorem C5_complete_semantics :
    (∀ (now : ℤ) (aid : Option String) (taskId : String) (tasks : List Task)
       (task : Task) (i : ℕ) (t : Task),
      tasks.find? (fun t => t.id = taskId) = some task →
      task.status ≠ TaskStatus.completed → task.startTime ≤ now →
      tasks[i]? = some t → t.id = taskId →
      ((completeCore true now aid taskId tasks).1)[i]? =
        some { t with status := TaskStatus.completed,
                      duration := max 1 (ceilDiv (now - task.startTime) 60000),
                      timer := { t.timer with isRunning := false } }) ∧
    (∀ (now : ℤ) (aid : Option String) (taskId : String) (tasks : List Task)
       (task : Task) (i : ℕ) (t : Task),
      tasks.find? (fun t => t.id = taskId) = some task →
      task.status ≠ TaskStatus.completed → task.startTime > now →
      tasks[i]? = some t → t.id = taskId →
      ((completeCore true now aid taskId tasks).1)[i]? =
        some { t with status := TaskStatus.completed, duration := 0,
                      timer := { t.timer with isRunning := false } }) ∧
    (∀ (isToday : Bool) (now : ℤ) (aid : Option String) (taskId : String)
       (tasks : List Task) (task : Task),
      tasks.find? (fun t => t.id = taskId) = some task →
      task.status = TaskStatus.completed →
      (completeCore isToday now aid taskId tasks).1 =
        tasks.map (fun t =>
          if t.id = taskId then
            { t with status := TaskStatus.pending, duration := task.duration,
                     timer := { t.timer with isRunning := false } }
          else t)) := by
  refine ⟨?_, ?_, ?_⟩
  · intro now aid taskId tasks task i t hfind hnc hle hti hid
    simp only [completeCore, hfind, List.getElem?_map, hti, Option.map_some]
    simp [hid, hnc, hle]
  · intro now aid taskId tasks task i t hfind hnc hgt hti hid
    have hnle : ¬ task.startTime ≤ now := not_le.mpr hgt
    simp only [completeCore, hfind, List.getElem?_map, hti, Option.map_some]
    simp [hid, hnc, hnle]
  · intro isToday now aid taskId tasks task hfind hc
    simp [completeCore, hfind, hc]

/-- Witness for the amended C5: completing the pending task at time 60000
snaps its duration to one minute. -/
theorem C5_complete_semantics_witness :
    ((completeCore true 60000 none idA [c5Task]).1)[0]? =
      some { c5Task with status := TaskStatus.completed,
                         duration :=
                           max 1 (ceilDiv (60000 - c5Task.startTime) 60000),
                         timer := { c5Task.timer with isRunning := false } } :=
  C5_complete_semantics.1 60000 none idA [c5Task] c5Task 0 c5Task (by decide)
    (by decide) (by decide) (by decide) (by decide)

/-! ### Claim C6: toggle pause / resume -/

/-- A task running since JS timestamp 0, which is falsy. -/
def c6Task : Task :=
  { mkTask idA 30 none with
    timer := { baseTimer with isRunning := true, lastStartedAt := some 0 } }

/-- C6, counterexample: pausing a running task whose (defined)
`lastStartedAt` is `0` subtracts nothing, because the source reads
`lastStartedAt || Date.now()` and `0` is falsy; the claimed rule would
subtract 10 seconds here. -/
theorem C6_toggle_counterexample :
    ((handleToggleTimer 10000 idA [c6Task])[0]?).map
      (fun t => t.timer.remainingSeconds) = some 1500 ∧
    max 0 ((1500 : ℚ) - ((10000 - 0 : ℤ) : ℚ) / 1000) = 1490 ∧
    (1500 : ℚ) ≠ 1490 := by
  refine ⟨?_, ?_, by norm_num⟩
  · norm_num [handleToggleTimer, pauseTimer, jsMax, jsOr, mkTask, baseTimer,
      c6Task, idA]
  · rw [← jsMax_eq_max]
    norm_num [jsMax]

/-- C6 (amended): with a nonzero (truthy) `lastStartedAt`, toggling a
running target pauses it by the elapsed-subtraction rule, toggling a
non-running target starts it at `now` with `remainingSeconds` untouched,
and any other running task is paused by the same rule; the final conjuncts
are the concrete P6 run 1500 → 1490 → 1485. -/
theorem C6_toggle_pause_resume :
    (∀ (now : ℤ) (taskId : String) (tasks : List Task) (i : ℕ) (t : Task)
       (L : ℤ),
      tasks[i]? = some t → t.id = taskId → t.timer.isRunning = true →
      t.timer.lastStartedAt = some L → L ≠ 0 →
      (handleToggleTimer now taskId tasks)[i]? =
        some { t with timer := { t.timer with
          isRunning := false,
          remainingSeconds :=
            max 0 (t.timer.remainingSeconds - ((now - L : ℤ) : ℚ) / 1000),
          lastStartedAt := none } }) ∧
    (∀ (now : ℤ) (taskId : String) (tasks : List Task) (i : ℕ) (t : Task),
      tasks[i]? = some t → t.id = taskId → t.timer.isRunning = false →
      (handleToggleTimer now taskId tasks)[i]? =
        some { t with timer := { t.timer with
          isRunning := true, lastStartedAt := some now } }) ∧
    (∀ (now : ℤ) (taskId : String) (tasks : List Task) (i : ℕ) (t : Task)
       (L : ℤ),
      tasks[i]? = some t → t.id ≠ taskId → t.timer.isRunning = true →
      t.timer.lastStartedAt = some L → L ≠ 0 →
      (handleToggleTimer now taskId tasks)[i]? =
        some { t with timer := { t.timer with
          isRunning := false,
          remainingSeconds :=
            max 0 (t.timer.remainingSeconds - ((now - L : ℤ) : ℚ) / 1000),
          lastStartedAt := none } }) ∧
    ((handleToggleTimer 110000 idA
        (handleToggleTimer 100000 idA [mkTask idA 30 none]))[0]?).map
      (fun t => t.timer.remainingSeconds) = some 1490 ∧
    ((handleToggleTimer 125000 idA (handleToggleTimer 120000 idA
        (handleToggleTimer 110000 idA
          (handleToggleTimer 100000 idA [mkTask idA 30 none]))))[0]?).map
      (fun t => t.timer.remainingSeconds) = some 1485 := by
  refine ⟨?_, ?_, ?_, ?_, ?_⟩
  · intro now taskId tasks i t L hti hid hrun hlast hL
    simp only [handleToggleTimer, List.getElem?_map, hti, Option.map_some]
    simp [hid, hrun, pauseTimer, hlast, jsOr, hL, jsMax_eq_max]
  · intro now taskId tasks i t hti hid hrun
    simp only [handleToggleTimer, List.getElem?_map, hti, Option.map_some]
    simp [hid, hrun]
  · intro now taskId tasks i t L hti hid hrun hlast hL
    simp only [handleToggleTimer, List.getElem?_map, hti, Option.map_some]
    simp [hid, hrun, pauseTimer, hlast, jsOr, hL, jsMax_eq_max]
  · norm_num [handleToggleTimer, pauseTimer, jsMax, jsOr, mkTask, baseTimer,
      idA]
  · norm_num [handleToggleTimer, pauseTimer, jsMax, jsOr, mkTask, baseTimer,
      idA]

/-- A task running since timestamp 100000 with 1500 seconds left. -/
def c6Running : Task :=
  { mkTask idA 30 none with
    timer := { baseTimer with isRunning := true, lastStartedAt := some 100000 } }

/-- Witness for the amended C6: pausing `c6Running` ten seconds later. -/
theorem C6_toggle_pause_resume_witness :
    (handleToggleTimer 110000 idA [c6Running])[0]? =
      some { c6Running with timer := { c6Running.timer with
        isRunning := false,
        remainingSeconds :=
          max 0 (c6Running.timer.remainingSeconds -
            ((110000 - 100000 : ℤ) : ℚ) / 1000),
        lastStartedAt := none } } :=
  C6_toggle_pause_resume.1 110000 idA [c6Running] 0 c6Running 100000
    (by decide) (by decide) (by decide) (by decide) (by decide)

/-! ### Claim C7: the pomodoro cycle -/

/-- Default-like settings: 25/5/15 minutes, no auto-start. -/
def sampleSettings : Settings :=
  { pomodoroDuration := 25, shortBreakDuration := 5, longBreakDuration := 15,
    autoStartBreaks := false, autoStartPomodoros := false }

/-- One `handleTimerFinish` call on the single-task list, for iteration. -/
def c7Step (l : List Task) : List Task :=
  handleTimerFinish sampleSettings 0 idA l

/-- C7: finishing in pomo mode increments `completedPomodoros` and routes to
the long break exactly when the new count is a multiple of 4 (else the short
break); finishing in a break routes back to pomo; `remainingSeconds` becomes
the configured duration of the next mode in seconds, `isRunning` is the
applicable auto-start flag, and `lastStartedAt` is `now` exactly when
auto-started.  The last conjunct runs the cycle concretely: of seven
consecutive finishes from a fresh pomo, the pomo-mode finishes (calls
1, 3, 5, 7) route to short, short, short, long. -/
theorem C7_finish_cycle :
    (∀ (s : Settings) (now : ℤ) (taskId : String) (tasks : List Task)
       (i : ℕ) (t : Task),
      tasks[i]? = some t → t.id = taskId →
      (handleTimerFinish s now taskId tasks)[i]? = some (finishTask s now t)) ∧
    (∀ (s : Settings) (now : ℤ) (t : Task), t.timer.mode = TimerMode.pomo →
      (finishTask s now t).completedPomodoros = t.completedPomodoros + 1 ∧
      ((finishTask s now t).timer.mode = TimerMode.long ↔
        (t.completedPomodoros + 1) % 4 = 0) ∧
      ((finishTask s now t).timer.mode = TimerMode.short ↔
        ¬(t.completedPomodoros + 1) % 4 = 0) ∧
      (finishTask s now t).timer.remainingSeconds =
        (((if (t.completedPomodoros + 1) % 4 = 0 then s.longBreakDuration
           else s.shortBreakDuration) * 60 : ℤ) : ℚ) ∧
      (finishTask s now t).timer.isRunning = s.autoStartBreaks ∧
      (finishTask s now t).timer.lastStartedAt =
        (if s.autoStartBreaks then some now else none)) ∧
    (∀ (s : Settings) (now : ℤ) (t : Task), t.timer.mode ≠ TimerMode.pomo →
      (finishTask s now t).completedPomodoros = t.completedPomodoros ∧
      (finishTask s now t).timer.mode = TimerMode.pomo ∧
      (finishTask s now t).timer.remainingSeconds =
        ((s.pomodoroDuration * 60 : ℤ) : ℚ) ∧
      (finishTask s now t).timer.isRunning = s.autoStartPomodoros ∧
      (finishTask s now t).timer.lastStartedAt =
        (if s.autoStartPomodoros then some now else none)) ∧
    ((c7Step^[1] [mkTask idA 30 none])[0]?.map (fun t => t.timer.mode) =
        some TimerMode.short ∧
      (c7Step^[3] [mkTask idA 30 none])[0]?.map (fun t => t.timer.mode) =
        some TimerMode.short ∧
      (c7Step^[5] [mkTask idA 30 none])[0]?.map (fun t => t.timer.mode) =
        some TimerMode.short ∧
      (c7Step^[7] [mkTask idA 30 none])[0]?.map (fun t => t.timer.mode) =
        some TimerMode.long) := by
  refine ⟨?_, ?_, ?_, by decide, by decide, by decide, by decide⟩
  · intro s now taskId tasks i t hti hid
    simp [handleTimerFinish, List.getElem?_map, hti, hid]
  · intro s now t ht
    by_cases h4 : (t.completedPomodoros + 1) % 4 = 0 <;>
      simp [finishTask, ht, h4]
  · intro s now t ht
    simp [finishTask, ht]

/-- Witness for C7: one pomo finish from a fresh task with zero completed
pomodoros, with auto-start disabled. -/
theorem C7_finish_cycle_witness :
    (finishTask sampleSettings 0 (mkTask idA 30 none)).completedPomodoros =
      (mkTask idA 30 none).completedPomodoros + 1 ∧
    ((finishTask sampleSettings 0 (mkTask idA 30 none)).timer.mode =
        TimerMode.long ↔
      ((mkTask idA 30 none).completedPomodoros + 1) % 4 = 0) ∧
    ((finishTask sampleSettings 0 (mkTask idA 30 none)).timer.mode =
        TimerMode.short ↔
      ¬((mkTask idA 30 none).completedPomodoros + 1) % 4 = 0) ∧
    (finishTask sampleSettings 0 (mkTask idA 30 none)).timer.remainingSeconds =
      (((if ((mkTask idA 30 none).completedPomodoros + 1) % 4 = 0 then
          sampleSettings.longBreakDuration
         else sampleSettings.shortBreakDuration) * 60 : ℤ) : ℚ) ∧
    (finishTask sampleSettings 0 (mkTask idA 30 none)).timer.isRunning =
      sampleSettings.autoStartBreaks ∧
    (finishTask sampleSettings 0 (mkTask idA 30 none)).timer.lastStartedAt =
      (if sampleSettings.autoStartBreaks then some 0 else none) :=
  C7_finish_cycle.2.1 sampleSettings 0 (mkTask idA 30 none) (by decide)

/-! ### Claim C8: at most one running timer -/

/-- A task running since timestamp 7000. -/
def c8Running : Task :=
  { mkTask idA 30 none with
    timer := { baseTimer with isRunning := true, lastStartedAt := some 7000 } }

/-- Settings with `autoStartBreaks` enabled. -/
def c8Settings : Settings := { sampleSettings with autoStartBreaks := true }

/-- C8, counterexample: `handleTimerFinish` does not pause other running
timers.  With "a" running (so at most one timer runs) and auto-start of
breaks enabled, finishing "b"'s pomo leaves "a" running and starts "b": two
running timers. -/
theorem C8_single_running_counterexample :
    ([c8Running, mkTask idB 30 none].countP (fun t => t.timer.isRunning)) ≤ 1 ∧
    ¬ ((handleTimerFinish c8Settings 9000 idB
        [c8Running, mkTask idB 30 none]).countP
          (fun t => t.timer.isRunning)) ≤ 1 := by
  decide

/-- C8 (amended): provided task ids are unique enough that at most one task
bears the target id, `handleToggleTimer` leaves at most one timer running
unconditionally, and `handleTimerFinish` / `handleSkipTimer` do so provided
every running task is the target (they never pause other tasks, so a
different running task plus an auto-started target violates the invariant,
as the counterexample shows). -/
theorem C8_single_running_invariant :
    (∀ (now : ℤ) (taskId : String) (tasks : List Task),
      tasks.countP (fun t => t.id == taskId) ≤ 1 →
      (handleToggleTimer now taskId tasks).countP
        (fun t => t.timer.isRunning) ≤ 1) ∧
    (∀ (s : Settings) (now : ℤ) (taskId : String) (tasks : List Task),
      tasks.countP (fun t => t.id == taskId) ≤ 1 →
      (∀ t ∈ tasks, t.timer.isRunning = true → t.id = taskId) →
      (handleTimerFinish s now taskId tasks).countP
        (fun t => t.timer.isRunning) ≤ 1) ∧
    (∀ (s : Settings) (now : ℤ) (taskId : String) (tasks : List Task),
      tasks.countP (fun t => t.id == taskId) ≤ 1 →
      (∀ t ∈ tasks, t.timer.isRunning = true → t.id = taskId) →
      (handleSkipTimer s now taskId tasks).countP
        (fun t => t.timer.isRunning) ≤ 1) := by
  have hfin : ∀ (s : Settings) (now : ℤ) (taskId : String) (tasks : List Task),
      tasks.countP (fun t => t.id == taskId) ≤ 1 →
      (∀ t ∈ tasks, t.timer.isRunning = true → t.id = taskId) →
      (handleTimerFinish s now taskId tasks).countP
        (fun t => t.timer.isRunning) ≤ 1 := by
    intro s now taskId tasks hid hrun
    unfold handleTimerFinish
    rw [List.countP_map]
    refine le_trans (List.countP_mono_left ?_) hid
    intro t ht h
    by_cases hid2 : t.id = taskId
    · simp [hid2]
    · simp only [Function.comp, if_neg hid2] at h
      exact absurd (hrun t ht h) hid2
  refine ⟨?_, hfin, hfin⟩
  intro now taskId tasks hid
  unfold handleToggleTimer
  rw [List.countP_map]
  refine le_trans (List.countP_mono_left ?_) hid
  intro t ht h
  by_cases hid2 : t.id = taskId
  · simp [hid2]
  · rcases hrun : t.timer.isRunning with _ | _ <;>
      simp [Function.comp, hid2, hrun, pauseTimer] at h

/-- Witness for the amended C8: toggling "a" in a two-task list, and
finishing the only running task. -/
theorem C8_single_running_invariant_witness :
    ((handleToggleTimer 5 idA [mkTask idA 3 none, mkTask idB 4 none]).countP
      (fun t => t.timer.isRunning) ≤ 1) ∧
    ((handleTimerFinish c8Settings 9000 idA
        [c8Running, mkTask idB 30 none]).countP
      (fun t => t.timer.isRunning) ≤ 1) :=
  ⟨C8_single_running_invariant.1 5 idA [mkTask idA 3 none, mkTask idB 4 none]
      (by decide),
   C8_single_running_invariant.2.1 c8Settings 9000 idA
      [c8Running, mkTask idB 30 none] (by decide) (by decide)⟩

end DayPlanner
